import Mathlib

/-!
Shallow embedding of the service-provider-template reconciliation engine
(`pkg/runtime/spreconciler.go`, `pkg/runtime/status.go`, and the
provider-config reconciler) and proofs about its control loop.

Modelling conventions:
* Go `ctrl.Result` is a record with a `RequeueAfter` duration; durations are
  modelled as `Nat` (nanoseconds), only zero-vs-positive and exact values
  matter.
* Go `error` values are `Option GoErr`; `GoErr.notFound` models
  `apierrors.IsNotFound`.
* The external collaborators (the cluster-access reconciler, the pluggable
  service-provider domain reconciler, and the Kubernetes clients) are out of
  scope of the repository; one reconciliation invocation is run against an
  environment (`SPEnv`) that fixes what every collaborator call would return
  during that invocation.  Mutating calls are recorded, in call order, in an
  `Effect` trace; read-only lookups are not traced.
* `DeepCopyObject` is the identity on the immutable Lean values.
-/

/-- A Go `error` value: `notFound` is true for errors recognised by
`apierrors.IsNotFound`. `none : Option GoErr` is Go's `nil` error. -/
structure GoErr where
  notFound : Bool
  msg : String
deriving Repr, DecidableEq

/-- Go `apierrors.IsNotFound` applied to a possibly-nil error. -/
def isNotFound : Option GoErr → Bool
  | some e => e.notFound
  | none => false

/-- Go `client.IgnoreNotFound`: returns nil for not-found errors, the error
otherwise. -/
def ignoreNotFound : Option GoErr → Option GoErr
  | some e => if e.notFound then none else some e
  | none => none

/-- Go `ctrl.Result`: only the `RequeueAfter` duration is used by this code. -/
structure Result where
  requeueAfter : Nat
deriving Repr, DecidableEq

/-- A `metav1.Condition` (timestamps are not modelled). -/
structure Condition where
  ctype : String
  status : Bool
  observedGeneration : Int
  reason : String
  message : String
deriving Repr, DecidableEq

/-- The status block of an onboarding API object (phase, observed
generation, condition list), as exposed by the `APIObjectStatus`
interface. -/
structure ObjStatus where
  phase : String
  observedGeneration : Int
  conditions : List Condition
deriving Repr, DecidableEq

/-- An onboarding API object (`ServiceProviderAPI`): metadata relevant to
the loop plus the status block.  `deletionTimestampSet` models
`!obj.GetDeletionTimestamp().IsZero()`. -/
structure APIObject where
  generation : Int
  deletionTimestampSet : Bool
  finalizers : List String
  status : ObjStatus
deriving Repr, DecidableEq

/-- Constant `ServiceProviderConditionReady` of `status.go`. -/
def ServiceProviderConditionReady : String := "Ready"

/-- Constant `StatusPhaseReady` of `status.go`. -/
def StatusPhaseReady : String := "Ready"

/-- Constant `StatusPhaseProgressing` of `status.go`. -/
def StatusPhaseProgressing : String := "Progressing"

/-- Constant `StatusPhaseTerminating` of `status.go`. -/
def StatusPhaseTerminating : String := "Terminating"

/-- `meta.SetStatusCondition` (without transition timestamps): update the
first condition with the same type in place, or append the new condition. -/
def setStatusCondition : List Condition → Condition → List Condition
  | [], c => [c]
  | e :: rest, c =>
    if e.ctype = c.ctype then
      { e with
        status := c.status
        observedGeneration := c.observedGeneration
        reason := c.reason
        message := c.message } :: rest
    else e :: setStatusCondition rest c

/-- `meta.FindStatusCondition`: first condition of the given type. -/
def findStatusCondition (conds : List Condition) (t : String) : Option Condition :=
  conds.find? (fun c => c.ctype == t)

/-- `StatusProgressing` of `status.go`: Ready condition set to False with the
given reason/message, observed generation synced, phase `Progressing`. -/
def StatusProgressing (obj : APIObject) (reason message : String) : APIObject :=
  let conds := setStatusCondition obj.status.conditions
    ⟨ServiceProviderConditionReady, false, obj.generation, reason, message⟩
  { obj with status := ⟨StatusPhaseProgressing, obj.generation, conds⟩ }

/-- `StatusReady` of `status.go`: Ready condition set to True, observed
generation synced, phase `Ready`. -/
def StatusReady (obj : APIObject) : APIObject :=
  let conds := setStatusCondition obj.status.conditions
    ⟨ServiceProviderConditionReady, true, obj.generation, "ReconcileSuccess",
      "Domain Service is ready"⟩
  { obj with status := ⟨StatusPhaseReady, obj.generation, conds⟩ }

/-- `StatusTerminating` of `status.go`: Ready condition set to False,
observed generation synced, phase `Terminating`. -/
def StatusTerminating (obj : APIObject) : APIObject :=
  let conds := setStatusCondition obj.status.conditions
    ⟨ServiceProviderConditionReady, false, obj.generation, "Terminating",
      "Cleanup in progress"⟩
  { obj with status := ⟨StatusPhaseTerminating, obj.generation, conds⟩ }

/-- An opaque handle to a provisioned cluster (`*clusters.Cluster`); Go's
nil handle is `none : Option Cluster`. -/
structure Cluster where
  id : Nat
deriving Repr, DecidableEq

/-- A cluster `AccessRequest` record as returned by the cluster-access
collaborator's lookup operations; only the presence of its own deletion
timestamp matters to the loop. -/
structure AccessRequest where
  hasDeletionTimestamp : Bool
deriving Repr, DecidableEq

/-- The `ClusterContext` handed to the service-provider domain reconciler. -/
structure ClusterContext where
  mcpCluster : Option Cluster := none
  workloadCluster : Option Cluster := none
deriving Repr, DecidableEq

/-- A provider-configuration value (`ProviderConfig`): the poll interval it
reports plus an abstract payload distinguishing configurations by value. -/
structure ProviderConfig where
  pollInterval : Nat
  payload : Nat := 0
deriving Repr, DecidableEq

/-- Externally observable (mutating) actions of one reconciliation, in call
order.  Read-only lookups (object get, cluster handle and access-request
lookups) are not traced. -/
inductive Effect where
  /-- `clusterAccessReconciler.Reconcile` was invoked (provisions access). -/
  | accessReconcile : Effect
  /-- `controllerutil.CreateOrUpdate` ensured the finalizer on the stored
  object; payload is the write error, if any. -/
  | ensureFinalizer : Option GoErr → Effect
  /-- a status patch was issued with this status; payload two is the patch
  error, if any. -/
  | statusPatch : ObjStatus → Option GoErr → Effect
  /-- the domain reconciler's `CreateOrUpdate` was invoked and returned the
  recorded result and error. -/
  | domainCreateOrUpdate : Result → Option GoErr → Effect
  /-- the domain reconciler's `Delete` was invoked and returned the recorded
  result and error. -/
  | domainDelete : Result → Option GoErr → Effect
  /-- `clusterAccessReconciler.ReconcileDelete` (access teardown) was invoked
  and returned the recorded result and error. -/
  | accessReconcileDelete : Result → Option GoErr → Effect
  /-- the finalizer was removed from the in-memory object and an object
  update was issued; payload is the resulting finalizer list and the write
  error, if any. -/
  | finalizerUpdate : List String → Option GoErr → Effect
deriving Repr, DecidableEq

/-- Environment of one `SPReconciler.Reconcile` invocation: the reconciler's
configuration, the fetched object, and the outcome of every collaborator or
client call the invocation may make. -/
structure SPEnv where
  /-- the object's finalizer string (`obj.Finalizer()`). -/
  fin : String
  /-- `withWorkloadCluster` of the reconciler. -/
  withWorkloadCluster : Bool
  /-- the cached provider-config pointer (`providerConfig.Load()`). -/
  providerConfig : Option ProviderConfig
  /-- result of the onboarding-cluster `Get` for the request key. -/
  getResult : Except GoErr APIObject
  /-- result of `clusterAccessReconciler.Reconcile`. -/
  accessReconcile : Result × Option GoErr
  /-- result of `clusterAccessReconciler.MCPCluster`. -/
  mcpCluster : Option Cluster × Option GoErr
  /-- result of `clusterAccessReconciler.WorkloadCluster`. -/
  workloadCluster : Option Cluster × Option GoErr
  /-- result of `clusterAccessReconciler.MCPAccessRequest`. -/
  mcpAccessRequest : Option AccessRequest × Option GoErr
  /-- result of `clusterAccessReconciler.WorkloadAccessRequest`. -/
  workloadAccessRequest : Option AccessRequest × Option GoErr
  /-- result of `clusterAccessReconciler.ReconcileDelete`. -/
  reconcileDelete : Result × Option GoErr
  /-- behaviour of `serviceProviderReconciler.Delete`: mutated object,
  result, error. -/
  domainDelete : APIObject → APIObject × Result × Option GoErr
  /-- behaviour of `serviceProviderReconciler.CreateOrUpdate`: mutated
  object, result, error. -/
  domainCreateOrUpdate : APIObject → APIObject × Result × Option GoErr
  /-- error of the `controllerutil.CreateOrUpdate` write ensuring the
  finalizer. -/
  ensureFinalizerErr : Option GoErr
  /-- error of the onboarding-cluster status patch. -/
  statusPatchErr : Option GoErr
  /-- error of the onboarding-cluster object update persisting finalizer
  removal. -/
  finalizerUpdateErr : Option GoErr

/-- The outcome of one invocation: the returned `ctrl.Result` and error, the
final in-memory object, and the trace of mutating actions. -/
structure Outcome where
  res : Result
  err : Option GoErr
  obj : APIObject
  effects : List Effect

/-- `SPReconciler.updateStatus`: diff old and new status under deep
equality; only when they differ issue a status patch (whose failure is
logged, never propagated). Returns the recorded actions. -/
def updateStatus (patchErr : Option GoErr) (newObj oldObj : APIObject) : List Effect :=
  if oldObj.status = newObj.status then []
  else [Effect.statusPatch newObj.status patchErr]

/-- Helper for the Go condition `accessRequest != nil &&
accessRequest.DeletionTimestamp != nil`. -/
def hasDeletionTs : Option AccessRequest → Bool
  | some r => r.hasDeletionTimestamp
  | none => false

/-- `SPReconciler.areAccessRequestsInDeletion`: an access request that is
not found, or that carries its own deletion timestamp, means "in
deletion"; the workload access request is only consulted when the
reconciler was configured with a workload cluster. -/
def areAccessRequestsInDeletion (env : SPEnv) : Bool × Option GoErr :=
  if isNotFound env.mcpAccessRequest.2 || hasDeletionTs env.mcpAccessRequest.1 then
    (true, none)
  else
    match env.mcpAccessRequest.2 with
    | some e => (false, some e)
    | none =>
      if env.withWorkloadCluster then
        if isNotFound env.workloadAccessRequest.2 || hasDeletionTs env.workloadAccessRequest.1 then
          (true, none)
        else
          match env.workloadAccessRequest.2 with
          | some e => (false, some e)
          | none => (false, none)
      else (false, none)

/-- `SPReconciler.clusters`: drive cluster-access provisioning, then resolve
the MCP handle (and the workload handle when required); a nil handle with a
nil error becomes an "access missing" error. -/
def clusters (env : SPEnv) : ClusterContext × Result × Option GoErr :=
  match env.accessReconcile with
  | (_, some e) => ({}, ⟨0⟩, some e)
  | (res, none) =>
    if 0 < res.requeueAfter then ({}, res, none)
    else
      match env.mcpCluster with
      | (_, some e) => ({}, ⟨0⟩, some e)
      | (none, none) => ({}, res, some ⟨false, "mcp access missing"⟩)
      | (some m, none) =>
        if env.withWorkloadCluster then
          match env.workloadCluster with
          | (_, some e) => (⟨some m, none⟩, ⟨0⟩, some e)
          | (none, none) => (⟨some m, none⟩, res, some ⟨false, "workload cluster access missing"⟩)
          | (some w, none) => (⟨some m, some w⟩, res, none)
        else (⟨some m, none⟩, res, none)

/-- `controllerutil.RemoveFinalizer`: drop every occurrence of the
finalizer from the in-memory object. -/
def removeFinalizer (fin : String) (obj : APIObject) : APIObject :=
  { obj with finalizers := obj.finalizers.filter (fun f => f != fin) }

/-- `controllerutil.AddFinalizer`: append the finalizer if absent. -/
def addFinalizer (fin : String) (obj : APIObject) : APIObject :=
  if obj.finalizers.contains fin then obj
  else { obj with finalizers := obj.finalizers ++ [fin] }

/-- Tail of `SPReconciler.delete` after the domain-phase block: request
access teardown; propagate its error; requeue while it is pending; only
once it reports completion remove the finalizer and persist the object. -/
def deleteTeardown (env : SPEnv) (obj : APIObject) (effs : List Effect) : Outcome :=
  match env.reconcileDelete with
  | (r, some e) => ⟨⟨0⟩, some e, obj, effs ++ [Effect.accessReconcileDelete r (some e)]⟩
  | (r, none) =>
    if 0 < r.requeueAfter then
      ⟨r, none, obj, effs ++ [Effect.accessReconcileDelete r none]⟩
    else
      match env.finalizerUpdateErr with
      | some e =>
        ⟨⟨0⟩, some e, removeFinalizer env.fin obj,
          effs ++ [Effect.accessReconcileDelete r none,
            Effect.finalizerUpdate (removeFinalizer env.fin obj).finalizers (some e)]⟩
      | none =>
        ⟨⟨0⟩, none, removeFinalizer env.fin obj,
          effs ++ [Effect.accessReconcileDelete r none,
            Effect.finalizerUpdate (removeFinalizer env.fin obj).finalizers none]⟩

/-- `SPReconciler.delete`: when the access requests are not yet in deletion,
resolve clusters (recording a Progressing status in memory on failure or
while provisioning), invoke the domain reconciler's `Delete`, diff/patch
status, and stop early on error or requeue; then (directly, when access is
already in deletion) fall through to access teardown and, on teardown
completion, finalizer removal. -/
def deleteFn (env : SPEnv) (obj : APIObject) : Outcome :=
  match areAccessRequestsInDeletion env with
  | (_, some e) => ⟨⟨0⟩, some e, obj, []⟩
  | (inDeletion, none) =>
    if inDeletion then deleteTeardown env obj []
    else
      match clusters env with
      | (_, _, some e) =>
        ⟨⟨0⟩, some e, StatusProgressing obj "ReconcileError" "cluster setup error",
          [Effect.accessReconcile]⟩
      | (_cctx, cres, none) =>
        if 0 < cres.requeueAfter then
          ⟨cres, none, StatusProgressing obj "Reconciling" "clusters being setup",
            [Effect.accessReconcile]⟩
        else
          match env.domainDelete obj with
          | (obj2, dres, derr) =>
            let effs := [Effect.accessReconcile, Effect.domainDelete dres derr]
              ++ updateStatus env.statusPatchErr obj2 obj
            match derr with
            | some e => ⟨⟨0⟩, some e, obj2, effs⟩
            | none =>
              if 0 < dres.requeueAfter then ⟨dres, none, obj2, effs⟩
              else deleteTeardown env obj2 effs

/-- `SPReconciler.createOrUpdate`: ensure the finalizer on the stored
object, resolve clusters (propagating errors, returning requeue hints), and
delegate to the domain reconciler's `CreateOrUpdate`, whose result and
error are returned verbatim. -/
def createOrUpdateFn (env : SPEnv) (obj : APIObject) : Outcome :=
  match env.ensureFinalizerErr with
  | some e => ⟨⟨0⟩, some e, addFinalizer env.fin obj, [Effect.ensureFinalizer (some e)]⟩
  | none =>
    match clusters env with
    | (_, _, some e) =>
      ⟨⟨0⟩, some e, addFinalizer env.fin obj,
        [Effect.ensureFinalizer none, Effect.accessReconcile]⟩
    | (_cctx, cres, none) =>
      if 0 < cres.requeueAfter then
        ⟨cres, none, addFinalizer env.fin obj,
          [Effect.ensureFinalizer none, Effect.accessReconcile]⟩
      else
        match env.domainCreateOrUpdate (addFinalizer env.fin obj) with
        | (obj2, dres, derr) =>
          ⟨dres, derr, obj2,
            [Effect.ensureFinalizer none, Effect.accessReconcile,
              Effect.domainCreateOrUpdate dres derr]⟩

/-- The empty object produced by `emptyObj` before a failed `Get`. -/
def emptyAPIObject : APIObject := ⟨0, false, [], ⟨"", 0, []⟩⟩

/-- The create/update branch of `Reconcile`: `res, err =
r.createOrUpdate(ctx, obj, providerConfigCopy)` followed by
`r.updateStatus(ctx, obj, oldObj)`. -/
def coWrap (env : SPEnv) (obj : APIObject) : Outcome :=
  let o := createOrUpdateFn env obj
  { o with effects := o.effects ++ updateStatus env.statusPatchErr o.obj obj }

/-- The shared tail of `Reconcile`: on error return an empty result with
the error; return a positive requeue delay verbatim; otherwise fall back
to the provider config's poll interval. -/
def outWrap (out : Outcome) (pc : ProviderConfig) : Outcome :=
  match out.err with
  | some e => ⟨⟨0⟩, some e, out.obj, out.effects⟩
  | none =>
    if 0 < out.res.requeueAfter then out
    else { out with res := ⟨pc.pollInterval⟩ }

/-- `SPReconciler.Reconcile`: fetch the object (not-found is a silent
no-op), require a cached provider config (else mark Progressing, attempt a
status patch, and fail), branch on the deletion marker into `delete` or
`createOrUpdate` (diffing/patching status after the latter), and translate
the delegated outcome: errors propagate with an empty result, a positive
requeue delay is returned verbatim, and otherwise the provider config's
poll interval is returned as the requeue delay. -/
def reconcile (env : SPEnv) : Outcome :=
  match env.getResult with
  | .error e => ⟨⟨0⟩, ignoreNotFound (some e), emptyAPIObject, []⟩
  | .ok obj =>
    match env.providerConfig with
    | none =>
      let obj2 := StatusProgressing obj "ReconcileError" "No ProviderConfig found"
      ⟨⟨0⟩, some ⟨false, "provider config missing"⟩, obj2,
        updateStatus env.statusPatchErr obj2 obj⟩
    | some pc =>
      outWrap (if obj.deletionTimestampSet then deleteFn env obj else coWrap env obj) pc

/-- The provider-configuration object watched by the secondary loop: the
configuration value plus its deletion marker. -/
structure PCObject where
  deletionTimestampSet : Bool
  config : ProviderConfig
deriving Repr, DecidableEq

/-- Environment of one `PCReconciler.Reconcile` invocation: what is stored
on the platform cluster under the request key, and whether the `Get` call
fails with a transient (non-not-found) error. -/
structure PCEnv where
  stored : Option PCObject
  readErr : Option GoErr
deriving Repr, DecidableEq

/-- The platform-cluster `Get` seen by `PCReconciler.Reconcile`: a transient
read error if one is injected, a not-found error when nothing is stored,
else the stored object. -/
def pcGet (env : PCEnv) : Except GoErr PCObject :=
  match env.readErr with
  | some e => .error e
  | none =>
    match env.stored with
    | none => .error ⟨true, "not found"⟩
    | some o => .ok o

/-- `PCReconciler.Reconcile`: build a notification event — empty when the
`Get` fails or the object carries a deletion marker, otherwise carrying a
deep copy of the object — and send it on the update channel; returns the
result, the error, and the list of events sent (in order). -/
def pcReconcile (env : PCEnv) : Result × Option GoErr × List (Option PCObject) :=
  match pcGet env with
  | .error e => (⟨0⟩, ignoreNotFound (some e), [none])
  | .ok obj =>
    if obj.deletionTimestampSet then (⟨0⟩, none, [none])
    else (⟨0⟩, none, [some obj])

/-- The events `PCReconciler.Reconcile` sends on the update channel. -/
def pcPublished (env : PCEnv) : List (Option PCObject) :=
  (pcReconcile env).2.2

/-- The payload the spec says an event should carry: the stored
configuration when (and only when) it is retrievable and not marked for
deletion. Written from the spec for comparison with `pcPublished`. -/
def pcLiveStored (env : PCEnv) : Option PCObject :=
  if env.readErr.isSome then none
  else
    match env.stored with
    | none => none
    | some o => if o.deletionTimestampSet then none else some o

/-- A managed object as seen by the fan-out consumer's unstructured
listing: only its identity matters. -/
structure UnstructuredItem where
  nspace : String
  name : String
deriving Repr, DecidableEq

/-- A `reconcile.Request` key (`types.NamespacedName`). -/
structure NamespacedName where
  nspace : String
  name : String
deriving Repr, DecidableEq

/-- `client.ObjectKeyFromObject` on a listed item. -/
def objectKeyFromObject (o : UnstructuredItem) : NamespacedName := ⟨o.nspace, o.name⟩

/-- The mapping function registered by `SPReconciler.SetupWithManager` on
the provider-config update channel: store a deep copy of the event's
object (or clear the cache for an event without an object), then list all
managed objects and emit one reconciliation request per listed item (none
when the listing fails).  Returns the new cached pointer and the emitted
requests. -/
def providerConfigMapFunc (evObj : Option ProviderConfig)
    (listResult : Except GoErr (List UnstructuredItem)) :
    Option ProviderConfig × List NamespacedName :=
  let cached : Option ProviderConfig :=
    match evObj with
    | some o => some o
    | none => none
  match listResult with
  | .error _ => (cached, [])
  | .ok items => (cached, items.map objectKeyFromObject)

/-- Does an effect record an invocation of access teardown
(`ReconcileDelete`)? -/
def isTeardownCall : Effect → Bool
  | .accessReconcileDelete _ _ => true
  | _ => false

/-- Does an effect record access teardown reporting complete (zero requeue
delay, no error)? -/
def isTeardownComplete : Effect → Bool
  | .accessReconcileDelete r e => r.requeueAfter == 0 && e.isNone
  | _ => false

/-- Does an effect record an invocation of the domain reconciler's
`Delete`? -/
def isDomainDeleteCall : Effect → Bool
  | .domainDelete _ _ => true
  | _ => false

/-- Does an effect record the domain reconciler's `Delete` reporting
complete (zero requeue delay, no error)? -/
def isDomainDeleteComplete : Effect → Bool
  | .domainDelete r e => r.requeueAfter == 0 && e.isNone
  | _ => false

/-- Does an effect record an invocation of the domain reconciler's
`CreateOrUpdate`? -/
def isDomainCreateOrUpdateCall : Effect → Bool
  | .domainCreateOrUpdate _ _ => true
  | _ => false

/-- Does an effect record finalizer removal together with its persisting
object update? -/
def isFinalizerUpdate : Effect → Bool
  | .finalizerUpdate _ _ => true
  | _ => false

/-- Does an effect record an issued status patch? -/
def isStatusPatch : Effect → Bool
  | .statusPatch _ _ => true
  | _ => false

/-- Access teardown was invoked during the invocation. -/
def teardownCalledIn (o : Outcome) : Bool := o.effects.any isTeardownCall

/-- Access teardown reported complete during the invocation. -/
def teardownCompleteIn (o : Outcome) : Bool := o.effects.any isTeardownComplete

/-- The domain reconciler's `Delete` reported complete during the
invocation. -/
def domainDeleteCompleteIn (o : Outcome) : Bool := o.effects.any isDomainDeleteComplete

/-- Finalizer removal (with its persisting update) happened during the
invocation. -/
def finalizerAttemptedIn (o : Outcome) : Bool := o.effects.any isFinalizerUpdate

/-- A status patch was issued during the invocation. -/
def statusPatchedIn (o : Outcome) : Bool := o.effects.any isStatusPatch

/-- `areAccessRequestsInDeletion` answered "in deletion" with no error. -/
def accessReqsInDeletionNoErr (env : SPEnv) : Bool :=
  (areAccessRequestsInDeletion env).1 && (areAccessRequestsInDeletion env).2.isNone

/-- How the tail of `SPReconciler.Reconcile` maps the delegated outcome to
the returned result: empty on error, the delegated requeue delay verbatim
when positive, else the provider config's poll interval. -/
def resWrap (out : Outcome) (pc : ProviderConfig) : Result :=
  match out.err with
  | some _ => ⟨0⟩
  | none => if 0 < out.res.requeueAfter then out.res else ⟨pc.pollInterval⟩

/-- A live object used in concrete instantiations. -/
def wLiveObj : APIObject := ⟨3, false, [], ⟨"", 0, []⟩⟩

/-- A finalized object with its deletion marker set, used in concrete
instantiations. -/
def wDelObj : APIObject := ⟨3, true, ["sp.finalizer"], ⟨"", 0, []⟩⟩

/-- A fully healthy environment: object live, config cached, access
provisioned, every collaborator call succeeding with zero delay. -/
def wBaseEnv : SPEnv := {
  fin := "sp.finalizer"
  withWorkloadCluster := false
  providerConfig := some ⟨300, 0⟩
  getResult := .ok wLiveObj
  accessReconcile := (⟨0⟩, none)
  mcpCluster := (some ⟨1⟩, none)
  workloadCluster := (none, none)
  mcpAccessRequest := (some ⟨false⟩, none)
  workloadAccessRequest := (some ⟨false⟩, none)
  reconcileDelete := (⟨0⟩, none)
  domainDelete := fun o => (o, ⟨0⟩, none)
  domainCreateOrUpdate := fun o => (o, ⟨0⟩, none)
  ensureFinalizerErr := none
  statusPatchErr := none
  finalizerUpdateErr := none }

/-- Environment where the MCP cluster lookup returns a nil handle and a nil
error while everything else is healthy. -/
def c2Env : SPEnv := { wBaseEnv with mcpCluster := (none, none) }

/-- Environment with no cached provider configuration. -/
def c3Env : SPEnv := { wBaseEnv with providerConfig := none }

/-- Deletion environment whose MCP access request is already gone
(not-found). -/
def c6Env : SPEnv :=
  { wBaseEnv with
    getResult := .ok wDelObj
    mcpAccessRequest := (none, some ⟨true, "not found"⟩) }

/-- Deletion environment whose cluster-access reconcile fails. -/
def c10Env : SPEnv :=
  { wBaseEnv with
    getResult := .ok wDelObj
    accessReconcile := (⟨0⟩, some ⟨false, "cluster access error"⟩) }

/-- Deletion environment where the domain delete completes but teardown is
still pending (positive requeue delay). -/
def c1EnvA : SPEnv :=
  { wBaseEnv with
    getResult := .ok wDelObj
    reconcileDelete := (⟨7⟩, none) }

/-- A two-phase deletion run: first invocation completes the domain delete
and starts teardown (still pending), later invocations find the access
requests already in deletion and finish teardown. -/
def c1Envs : Nat → SPEnv := fun i => if i = 0 then c1EnvA else c6Env

/-- A stored provider-config object that is alive (no deletion marker). -/
def c4Obj : PCObject := ⟨false, ⟨300, 1⟩⟩

/-- Secondary-loop environment where the config object exists and is alive
but the read fails with a transient (non-not-found) error. -/
def c4Env : PCEnv := ⟨some c4Obj, some ⟨false, "transport error"⟩⟩

theorem findStatusCondition_setStatusCondition (conds : List Condition) (c : Condition) :
    findStatusCondition (setStatusCondition conds c) c.ctype = some c := by
  induction conds with
  | nil =>
    simp [setStatusCondition, findStatusCondition]
  | cons e rest ih =>
    by_cases h : e.ctype = c.ctype
    · simp [setStatusCondition, findStatusCondition, h]
    · simp only [setStatusCondition, if_neg h, findStatusCondition, List.find?]
      have : (e.ctype == c.ctype) = false := by
        simpa using h
      rw [this]
      exact ih

theorem updateStatus_any (p : Option GoErr) (n o : APIObject) (f : Effect → Bool)
    (hf : ∀ st e, f (Effect.statusPatch st e) = false) :
    (updateStatus p n o).any f = false := by
  unfold updateStatus
  split <;> simp [hf]

theorem createOrUpdateFn_any (env : SPEnv) (obj : APIObject) (f : Effect → Bool)
    (h1 : ∀ e, f (Effect.ensureFinalizer e) = false)
    (h2 : f Effect.accessReconcile = false)
    (h3 : ∀ r e, f (Effect.domainCreateOrUpdate r e) = false) :
    (createOrUpdateFn env obj).effects.any f = false := by
  unfold createOrUpdateFn
  split
  · simp [h1]
  · split
    · simp [h1, h2]
    · split
      · simp [h1, h2]
      · split
        simp [h1, h2, h3]

theorem deleteTeardown_called (env : SPEnv) (obj : APIObject) (effs : List Effect) :
    teardownCalledIn (deleteTeardown env obj effs) = true := by
  unfold teardownCalledIn deleteTeardown
  split
  · simp [isTeardownCall]
  · split
    · simp [isTeardownCall]
    · split <;> simp [isTeardownCall]

theorem deleteTeardown_iff (env : SPEnv) (obj : APIObject) (effs : List Effect)
    (h1 : effs.any isFinalizerUpdate = false)
    (h2 : effs.any isTeardownComplete = false) :
    finalizerAttemptedIn (deleteTeardown env obj effs)
      = teardownCompleteIn (deleteTeardown env obj effs) := by
  unfold finalizerAttemptedIn teardownCompleteIn deleteTeardown
  split
  · simp [h1, h2, isFinalizerUpdate, isTeardownComplete]
  · rename_i r heq
    split
    · rename_i hpos
      have : (r.requeueAfter == 0) = false := by
        simp
        omega
      simp [h1, h2, isFinalizerUpdate, isTeardownComplete, this]
    · rename_i hpos
      have : (r.requeueAfter == 0) = true := by
        simp
        omega
      split <;> simp [h1, h2, isFinalizerUpdate, isTeardownComplete, this]

theorem deleteTeardown_domain (env : SPEnv) (obj : APIObject) (effs : List Effect) :
    domainDeleteCompleteIn (deleteTeardown env obj effs) = effs.any isDomainDeleteComplete := by
  unfold domainDeleteCompleteIn deleteTeardown
  split
  · simp [isDomainDeleteComplete]
  · split
    · simp [isDomainDeleteComplete]
    · split <;> simp [isDomainDeleteComplete]

theorem deleteTeardown_last (env : SPEnv) (obj : APIObject) (effs : List Effect)
    (h1 : effs.any isFinalizerUpdate = false) :
    finalizerAttemptedIn (deleteTeardown env obj effs) = true →
    ∃ pre fs e, (deleteTeardown env obj effs).effects = pre ++ [Effect.finalizerUpdate fs e] := by
  unfold finalizerAttemptedIn deleteTeardown
  split
  · intro h
    simp [h1, isFinalizerUpdate] at h
  · split
    · intro h
      simp [h1, isFinalizerUpdate] at h
    · rename_i r heq hpos
      cases hfe : env.finalizerUpdateErr with
      | some e =>
        simp only [hfe]
        intro _
        exact ⟨effs ++ [Effect.accessReconcileDelete r none],
          (removeFinalizer env.fin obj).finalizers, some e, by simp⟩
      | none =>
        simp only [hfe]
        intro _
        exact ⟨effs ++ [Effect.accessReconcileDelete r none],
          (removeFinalizer env.fin obj).finalizers, none, by simp⟩

theorem deleteTeardown_obj (env : SPEnv) (obj : APIObject) (effs : List Effect)
    (h1 : effs.any isFinalizerUpdate = false) :
    finalizerAttemptedIn (deleteTeardown env obj effs) = true →
    env.fin ∉ (deleteTeardown env obj effs).obj.finalizers := by
  unfold finalizerAttemptedIn deleteTeardown
  split
  · intro h
    simp [h1, isFinalizerUpdate] at h
  · split
    · intro h
      simp [h1, isFinalizerUpdate] at h
    · split <;> intro _ <;> simp [removeFinalizer, List.mem_filter]

theorem domainPhase_any (p : Option GoErr) (obj2 obj : APIObject) (dres : Result)
    (derr : Option GoErr) (f : Effect → Bool)
    (h2 : f Effect.accessReconcile = false)
    (h4 : ∀ st e, f (Effect.statusPatch st e) = false)
    (h5 : ∀ r e, f (Effect.domainDelete r e) = false) :
    ([Effect.accessReconcile, Effect.domainDelete dres derr]
      ++ updateStatus p obj2 obj).any f = false := by
  simp [List.any_append, h2, h5, updateStatus_any p obj2 obj f h4]

theorem deleteFn_iff (env : SPEnv) (obj : APIObject) :
    finalizerAttemptedIn (deleteFn env obj) = teardownCompleteIn (deleteFn env obj) := by
  unfold deleteFn
  split
  · simp [finalizerAttemptedIn, teardownCompleteIn]
  · split
    · exact deleteTeardown_iff env obj [] (by simp) (by simp)
    · split
      · simp [finalizerAttemptedIn, teardownCompleteIn, isFinalizerUpdate, isTeardownComplete]
      · split
        · simp [finalizerAttemptedIn, teardownCompleteIn, isFinalizerUpdate, isTeardownComplete]
        · split
          split
          · simp only [finalizerAttemptedIn, teardownCompleteIn]
            rw [domainPhase_any _ _ _ _ _ isFinalizerUpdate rfl (fun st e => rfl) (fun r e => rfl),
              domainPhase_any _ _ _ _ _ isTeardownComplete rfl (fun st e => rfl) (fun r e => rfl)]
          · split
            · simp only [finalizerAttemptedIn, teardownCompleteIn]
              rw [domainPhase_any _ _ _ _ _ isFinalizerUpdate rfl (fun st e => rfl) (fun r e => rfl),
                domainPhase_any _ _ _ _ _ isTeardownComplete rfl (fun st e => rfl) (fun r e => rfl)]
            · exact deleteTeardown_iff env _ _
                (domainPhase_any _ _ _ _ _ isFinalizerUpdate rfl (fun st e => rfl) (fun r e => rfl))
                (domainPhase_any _ _ _ _ _ isTeardownComplete rfl (fun st e => rfl) (fun r e => rfl))

theorem deleteFn_called (env : SPEnv) (obj : APIObject) :
    teardownCalledIn (deleteFn env obj) = true →
      accessReqsInDeletionNoErr env = true ∨ domainDeleteCompleteIn (deleteFn env obj) = true := by
  unfold deleteFn
  split
  · intro h
    simp [teardownCalledIn] at h
  · rename_i inDeletion heq
    split
    · rename_i hInDel
      intro _
      left
      unfold accessReqsInDeletionNoErr
      rw [heq]
      simpa using hInDel
    · split
      · intro h
        simp [teardownCalledIn, isTeardownCall] at h
      · split
        · intro h
          simp [teardownCalledIn, isTeardownCall] at h
        · split
          split
          · intro h
            simp only [teardownCalledIn] at h
            rw [domainPhase_any _ _ _ _ _ isTeardownCall rfl (fun st e => rfl)
              (fun r e => rfl)] at h
            exact absurd h (by simp)
          · split
            · intro h
              simp only [teardownCalledIn] at h
              rw [domainPhase_any _ _ _ _ _ isTeardownCall rfl (fun st e => rfl)
                (fun r e => rfl)] at h
              exact absurd h (by simp)
            · rename_i hpos
              intro _
              right
              simp only []
              rw [deleteTeardown_domain]
              simp [List.any_append, isDomainDeleteComplete,
                updateStatus_any env.statusPatchErr _ obj isDomainDeleteComplete (fun st e => rfl)]
              omega

theorem deleteFn_last (env : SPEnv) (obj : APIObject) :
    finalizerAttemptedIn (deleteFn env obj) = true →
    ∃ pre fs e, (deleteFn env obj).effects = pre ++ [Effect.finalizerUpdate fs e] := by
  unfold deleteFn
  split
  · intro h
    simp [finalizerAttemptedIn] at h
  · split
    · exact deleteTeardown_last env obj [] (by simp)
    · split
      · intro h
        simp [finalizerAttemptedIn, isFinalizerUpdate] at h
      · split
        · intro h
          simp [finalizerAttemptedIn, isFinalizerUpdate] at h
        · split
          split
          · intro h
            simp only [finalizerAttemptedIn] at h
            rw [domainPhase_any _ _ _ _ _ isFinalizerUpdate rfl (fun st e => rfl)
              (fun r e => rfl)] at h
            exact absurd h (by simp)
          · split
            · intro h
              simp only [finalizerAttemptedIn] at h
              rw [domainPhase_any _ _ _ _ _ isFinalizerUpdate rfl (fun st e => rfl)
                (fun r e => rfl)] at h
              exact absurd h (by simp)
            · exact deleteTeardown_last env _ _
                (domainPhase_any _ _ _ _ _ isFinalizerUpdate rfl (fun st e => rfl)
                  (fun r e => rfl))

theorem deleteFn_obj (env : SPEnv) (obj : APIObject) :
    finalizerAttemptedIn (deleteFn env obj) = true →
    env.fin ∉ (deleteFn env obj).obj.finalizers := by
  unfold deleteFn
  split
  · intro h
    simp [finalizerAttemptedIn] at h
  · split
    · exact deleteTeardown_obj env obj [] (by simp)
    · split
      · intro h
        simp [finalizerAttemptedIn, isFinalizerUpdate] at h
      · split
        · intro h
          simp [finalizerAttemptedIn, isFinalizerUpdate] at h
        · split
          split
          · intro h
            simp only [finalizerAttemptedIn] at h
            rw [domainPhase_any _ _ _ _ _ isFinalizerUpdate rfl (fun st e => rfl)
              (fun r e => rfl)] at h
            exact absurd h (by simp)
          · split
            · intro h
              simp only [finalizerAttemptedIn] at h
              rw [domainPhase_any _ _ _ _ _ isFinalizerUpdate rfl (fun st e => rfl)
                (fun r e => rfl)] at h
              exact absurd h (by simp)
            · exact deleteTeardown_obj env _ _
                (domainPhase_any _ _ _ _ _ isFinalizerUpdate rfl (fun st e => rfl)
                  (fun r e => rfl))

theorem coWrap_any (env : SPEnv) (obj : APIObject) (f : Effect → Bool)
    (h1 : ∀ e, f (Effect.ensureFinalizer e) = false)
    (h2 : f Effect.accessReconcile = false)
    (h3 : ∀ r e, f (Effect.domainCreateOrUpdate r e) = false)
    (h4 : ∀ st e, f (Effect.statusPatch st e) = false) :
    (coWrap env obj).effects.any f = false := by
  show ((createOrUpdateFn env obj).effects
    ++ updateStatus env.statusPatchErr (createOrUpdateFn env obj).obj obj).any f = false
  rw [List.any_append, createOrUpdateFn_any env obj f h1 h2 h3,
    updateStatus_any _ _ _ f h4]
  rfl

theorem outWrap_eq (out : Outcome) (pc : ProviderConfig) :
    outWrap out pc = ⟨resWrap out pc, out.err, out.obj, out.effects⟩ := by
  rcases out with ⟨r, er, ob, ef⟩
  cases er with
  | some e => rfl
  | none =>
    unfold outWrap resWrap
    dsimp only
    split <;> rfl

theorem reconcile_cases (env : SPEnv) :
    (∃ e, env.getResult = .error e
      ∧ reconcile env = ⟨⟨0⟩, ignoreNotFound (some e), emptyAPIObject, []⟩)
    ∨ (∃ obj, env.getResult = .ok obj ∧ env.providerConfig = none
      ∧ reconcile env = ⟨⟨0⟩, some ⟨false, "provider config missing"⟩,
          StatusProgressing obj "ReconcileError" "No ProviderConfig found",
          updateStatus env.statusPatchErr
            (StatusProgressing obj "ReconcileError" "No ProviderConfig found") obj⟩)
    ∨ (∃ obj pc, env.getResult = .ok obj ∧ env.providerConfig = some pc
      ∧ obj.deletionTimestampSet = true
      ∧ reconcile env = ⟨resWrap (deleteFn env obj) pc, (deleteFn env obj).err,
          (deleteFn env obj).obj, (deleteFn env obj).effects⟩)
    ∨ (∃ obj pc, env.getResult = .ok obj ∧ env.providerConfig = some pc
      ∧ obj.deletionTimestampSet = false
      ∧ reconcile env = ⟨resWrap (coWrap env obj) pc, (coWrap env obj).err,
          (coWrap env obj).obj, (coWrap env obj).effects⟩) := by
  cases hget : env.getResult with
  | error e =>
    refine Or.inl ⟨e, rfl, ?_⟩
    simp [reconcile, hget]
  | ok obj =>
    cases hpc : env.providerConfig with
    | none =>
      refine Or.inr (Or.inl ⟨obj, rfl, rfl, ?_⟩)
      simp [reconcile, hget, hpc]
    | some pc =>
      cases hdel : obj.deletionTimestampSet with
      | true =>
        refine Or.inr (Or.inr (Or.inl ⟨obj, pc, rfl, rfl, hdel, ?_⟩))
        simp only [reconcile, hget, hpc, hdel, if_true]
        exact outWrap_eq _ pc
      | false =>
        refine Or.inr (Or.inr (Or.inr ⟨obj, pc, rfl, rfl, hdel, ?_⟩))
        simp only [reconcile, hget, hpc, hdel, Bool.false_eq_true, if_false]
        exact outWrap_eq _ pc

theorem teardownComplete_called (o : Outcome) :
    teardownCompleteIn o = true → teardownCalledIn o = true := by
  unfold teardownCompleteIn teardownCalledIn
  intro h
  rcases List.any_eq_true.mp h with ⟨x, hx, hfx⟩
  refine List.any_eq_true.mpr ⟨x, hx, ?_⟩
  cases x <;> simp [isTeardownComplete, isTeardownCall] at hfx ⊢

theorem reconcile_iff (env : SPEnv) :
    finalizerAttemptedIn (reconcile env) = teardownCompleteIn (reconcile env) := by
  rcases reconcile_cases env with ⟨e, hg, hre⟩ | ⟨obj, hg, hpc, hre⟩
    | ⟨obj, pc, hg, hpc, hdel, hre⟩ | ⟨obj, pc, hg, hpc, hdel, hre⟩
  · simp [finalizerAttemptedIn, teardownCompleteIn, hre]
  · simp only [finalizerAttemptedIn, teardownCompleteIn, hre]
    rw [updateStatus_any _ _ _ isFinalizerUpdate (fun st e => rfl),
      updateStatus_any _ _ _ isTeardownComplete (fun st e => rfl)]
  · simpa [finalizerAttemptedIn, teardownCompleteIn, hre] using deleteFn_iff env obj
  · simp only [finalizerAttemptedIn, teardownCompleteIn, hre]
    rw [coWrap_any env obj isFinalizerUpdate (fun e => rfl) rfl (fun r e => rfl)
        (fun st e => rfl),
      coWrap_any env obj isTeardownComplete (fun e => rfl) rfl (fun r e => rfl)
        (fun st e => rfl)]

theorem reconcile_called (env : SPEnv) :
    teardownCalledIn (reconcile env) = true →
      accessReqsInDeletionNoErr env = true ∨ domainDeleteCompleteIn (reconcile env) = true := by
  rcases reconcile_cases env with ⟨e, hg, hre⟩ | ⟨obj, hg, hpc, hre⟩
    | ⟨obj, pc, hg, hpc, hdel, hre⟩ | ⟨obj, pc, hg, hpc, hdel, hre⟩
  · intro h
    simp [teardownCalledIn, hre] at h
  · intro h
    simp only [teardownCalledIn, hre] at h
    rw [updateStatus_any _ _ _ isTeardownCall (fun st e => rfl)] at h
    exact absurd h (by simp)
  · intro h
    have h2 : teardownCalledIn (deleteFn env obj) = true := by
      simpa [teardownCalledIn, hre] using h
    rcases deleteFn_called env obj h2 with hl | hr
    · exact Or.inl hl
    · right
      simpa [domainDeleteCompleteIn, hre] using hr
  · intro h
    simp only [teardownCalledIn, hre] at h
    rw [coWrap_any env obj isTeardownCall (fun e => rfl) rfl (fun r e => rfl)
      (fun st e => rfl)] at h
    exact absurd h (by simp)

theorem reconcile_last (env : SPEnv) :
    finalizerAttemptedIn (reconcile env) = true →
    ∃ pre fs e, (reconcile env).effects = pre ++ [Effect.finalizerUpdate fs e] := by
  rcases reconcile_cases env with ⟨e, hg, hre⟩ | ⟨obj, hg, hpc, hre⟩
    | ⟨obj, pc, hg, hpc, hdel, hre⟩ | ⟨obj, pc, hg, hpc, hdel, hre⟩
  · intro h
    simp [finalizerAttemptedIn, hre] at h
  · intro h
    simp only [finalizerAttemptedIn, hre] at h
    rw [updateStatus_any _ _ _ isFinalizerUpdate (fun st e => rfl)] at h
    exact absurd h (by simp)
  · intro h
    have h2 : finalizerAttemptedIn (deleteFn env obj) = true := by
      simpa [finalizerAttemptedIn, hre] using h
    rcases deleteFn_last env obj h2 with ⟨pre, fs, e2, heff⟩
    refine ⟨pre, fs, e2, ?_⟩
    rw [hre]
    exact heff
  · intro h
    simp only [finalizerAttemptedIn, hre] at h
    rw [coWrap_any env obj isFinalizerUpdate (fun e => rfl) rfl (fun r e => rfl)
      (fun st e => rfl)] at h
    exact absurd h (by simp)

theorem addFinalizer_mem (fin : String) (obj : APIObject) :
    fin ∈ (addFinalizer fin obj).finalizers := by
  unfold addFinalizer
  split
  · rename_i h
    simpa using h
  · simp

theorem addFinalizer_status (fin : String) (obj : APIObject) :
    (addFinalizer fin obj).status = obj.status := by
  unfold addFinalizer
  split <;> rfl

theorem deleteTeardown_any (env : SPEnv) (obj : APIObject) (effs : List Effect)
    (f : Effect → Bool)
    (h : effs.any f = false)
    (h1 : ∀ r e2, f (Effect.accessReconcileDelete r e2) = false)
    (h2 : ∀ fs e2, f (Effect.finalizerUpdate fs e2) = false) :
    (deleteTeardown env obj effs).effects.any f = false := by
  unfold deleteTeardown
  split
  · simp [h, h1]
  · split
    · simp [h, h1]
    · split <;> simp [h, h1, h2]

theorem deleteTeardown_success (env : SPEnv) (obj : APIObject) (effs : List Effect)
    (hrd : env.reconcileDelete = (⟨0⟩, none)) :
    deleteTeardown env obj effs
      = ⟨⟨0⟩, env.finalizerUpdateErr, removeFinalizer env.fin obj,
          effs ++ [Effect.accessReconcileDelete ⟨0⟩ none,
            Effect.finalizerUpdate (removeFinalizer env.fin obj).finalizers
              env.finalizerUpdateErr]⟩ := by
  unfold deleteTeardown
  rw [hrd]
  cases hfe : env.finalizerUpdateErr with
  | some e => simp [hfe]
  | none => simp [hfe]

theorem deleteTeardown_effs (env : SPEnv) (obj : APIObject) (effs1 effs2 : List Effect) :
    (deleteTeardown env obj effs1).res = (deleteTeardown env obj effs2).res
    ∧ (deleteTeardown env obj effs1).err = (deleteTeardown env obj effs2).err
    ∧ (deleteTeardown env obj effs1).obj = (deleteTeardown env obj effs2).obj := by
  rcases hrd : env.reconcileDelete with ⟨r, oe⟩
  unfold deleteTeardown
  rw [hrd]
  cases oe with
  | some e => exact ⟨rfl, rfl, rfl⟩
  | none =>
    dsimp only
    split
    · exact ⟨rfl, rfl, rfl⟩
    · cases env.finalizerUpdateErr <;> exact ⟨rfl, rfl, rfl⟩

theorem resWrap_congr (out1 out2 : Outcome) (pc : ProviderConfig)
    (he : out1.err = out2.err) (hr : out1.res = out2.res) :
    resWrap out1 pc = resWrap out2 pc := by
  unfold resWrap
  rw [he, hr]

theorem reconcile_objFin (env : SPEnv) :
    finalizerAttemptedIn (reconcile env) = true →
    env.fin ∉ (reconcile env).obj.finalizers := by
  rcases reconcile_cases env with ⟨e, hg, hre⟩ | ⟨obj, hg, hpc, hre⟩
    | ⟨obj, pc, hg, hpc, hdel, hre⟩ | ⟨obj, pc, hg, hpc, hdel, hre⟩
  · intro h
    simp [finalizerAttemptedIn, hre] at h
  · intro h
    simp only [finalizerAttemptedIn, hre] at h
    rw [updateStatus_any _ _ _ isFinalizerUpdate (fun st e => rfl)] at h
    exact absurd h (by simp)
  · intro h
    have h2 : finalizerAttemptedIn (deleteFn env obj) = true := by
      simpa [finalizerAttemptedIn, hre] using h
    have h3 := deleteFn_obj env obj h2
    rw [hre]
    exact h3
  · intro h
    simp only [finalizerAttemptedIn, hre] at h
    rw [coWrap_any env obj isFinalizerUpdate (fun e => rfl) rfl (fun r e => rfl)
      (fun st e => rfl)] at h
    exact absurd h (by simp)

theorem deleteFn_patchErr (env : SPEnv) (e : Option GoErr) (obj : APIObject) :
    (deleteFn { env with statusPatchErr := e } obj).res = (deleteFn env obj).res
    ∧ (deleteFn { env with statusPatchErr := e } obj).err = (deleteFn env obj).err
    ∧ (deleteFn { env with statusPatchErr := e } obj).obj = (deleteFn env obj).obj := by
  unfold deleteFn
  rw [show areAccessRequestsInDeletion { env with statusPatchErr := e }
      = areAccessRequestsInDeletion env from rfl,
    show clusters { env with statusPatchErr := e } = clusters env from rfl,
    show ({ env with statusPatchErr := e } : SPEnv).domainDelete = env.domainDelete from rfl,
    show ({ env with statusPatchErr := e } : SPEnv).statusPatchErr = e from rfl,
    show deleteTeardown { env with statusPatchErr := e } = deleteTeardown env from rfl]
  rcases haa : areAccessRequestsInDeletion env with ⟨inDel, aerr⟩
  cases aerr with
  | some e2 => exact ⟨rfl, rfl, rfl⟩
  | none =>
    cases inDel with
    | true => exact ⟨rfl, rfl, rfl⟩
    | false =>
      simp only [Bool.false_eq_true, if_false]
      split
      · rename_i cctx cres e2 heq
        try simp only [heq]
        first
        | exact ⟨rfl, rfl, rfl⟩
        | simp
      · rename_i cctx cres heq
        try simp only [heq]
        by_cases hcr : 0 < cres.requeueAfter
        · rw [if_pos hcr]
          try rw [if_pos hcr]
          exact ⟨rfl, rfl, rfl⟩
        · rw [if_neg hcr]
          try rw [if_neg hcr]
          split
          · rename_i e2 heq2
            try simp only [heq2]
            first
            | exact ⟨rfl, rfl, rfl⟩
            | simp
          · rename_i heq2
            try simp only [heq2]
            by_cases hdr : 0 < (env.domainDelete obj).2.1.requeueAfter
            · rw [if_pos hdr]
              try rw [if_pos hdr]
              exact ⟨rfl, rfl, rfl⟩
            · rw [if_neg hdr]
              try rw [if_neg hdr]
              exact deleteTeardown_effs env _ _ _

theorem reconcile_patchErr (env : SPEnv) (e : Option GoErr) :
    (reconcile { env with statusPatchErr := e }).res = (reconcile env).res
    ∧ (reconcile { env with statusPatchErr := e }).err = (reconcile env).err
    ∧ (reconcile { env with statusPatchErr := e }).obj = (reconcile env).obj := by
  rcases reconcile_cases env with ⟨e2, hg, hre⟩ | ⟨obj, hg, hpc, hre⟩
    | ⟨obj, pc, hg, hpc, hdel, hre⟩ | ⟨obj, pc, hg, hpc, hdel, hre⟩
  · have h1 : reconcile { env with statusPatchErr := e }
        = ⟨⟨0⟩, ignoreNotFound (some e2), emptyAPIObject, []⟩ := by
      simp [reconcile, hg]
    rw [h1, hre]
    exact ⟨rfl, rfl, rfl⟩
  · have h1 : reconcile { env with statusPatchErr := e }
        = ⟨⟨0⟩, some ⟨false, "provider config missing"⟩,
            StatusProgressing obj "ReconcileError" "No ProviderConfig found",
            updateStatus e
              (StatusProgressing obj "ReconcileError" "No ProviderConfig found") obj⟩ := by
      simp [reconcile, hg, hpc]
    rw [h1, hre]
    exact ⟨rfl, rfl, rfl⟩
  · have h1 : reconcile { env with statusPatchErr := e }
        = outWrap (deleteFn { env with statusPatchErr := e } obj) pc := by
      simp [reconcile, hg, hpc, hdel]
    rw [h1, hre, outWrap_eq]
    obtain ⟨hr, he, ho⟩ := deleteFn_patchErr env e obj
    exact ⟨resWrap_congr _ _ pc he hr, he, ho⟩
  · have h1 : reconcile { env with statusPatchErr := e }
        = outWrap (coWrap { env with statusPatchErr := e } obj) pc := by
      simp [reconcile, hg, hpc, hdel]
    rw [h1, hre, outWrap_eq]
    exact ⟨resWrap_congr _ _ pc rfl rfl, rfl, rfl⟩

/-- C9: Each of the three status helpers (`StatusProgressing`, `StatusReady`,
`StatusTerminating`) overwrites the single Ready condition with the
corresponding boolean status, reason and message, sets `observedGeneration`
to the object's current generation and phase to the matching well-known
value — so phase and observed generation are only ever updated together —
and mutates only the in-memory status block (generation, deletion marker
and finalizers are untouched). -/
theorem c9_status_helpers (obj : APIObject) (reason message : String) :
    ((StatusProgressing obj reason message).status.phase = StatusPhaseProgressing
      ∧ (StatusProgressing obj reason message).status.observedGeneration = obj.generation
      ∧ (StatusProgressing obj reason message).status.conditions
          = setStatusCondition obj.status.conditions
              ⟨ServiceProviderConditionReady, false, obj.generation, reason, message⟩
      ∧ findStatusCondition (StatusProgressing obj reason message).status.conditions
            ServiceProviderConditionReady
          = some ⟨ServiceProviderConditionReady, false, obj.generation, reason, message⟩
      ∧ (StatusProgressing obj reason message).generation = obj.generation
      ∧ (StatusProgressing obj reason message).finalizers = obj.finalizers
      ∧ (StatusProgressing obj reason message).deletionTimestampSet
          = obj.deletionTimestampSet)
    ∧ ((StatusReady obj).status.phase = StatusPhaseReady
      ∧ (StatusReady obj).status.observedGeneration = obj.generation
      ∧ (StatusReady obj).status.conditions
          = setStatusCondition obj.status.conditions
              ⟨ServiceProviderConditionReady, true, obj.generation, "ReconcileSuccess",
                "Domain Service is ready"⟩
      ∧ findStatusCondition (StatusReady obj).status.conditions
            ServiceProviderConditionReady
          = some ⟨ServiceProviderConditionReady, true, obj.generation, "ReconcileSuccess",
              "Domain Service is ready"⟩
      ∧ (StatusReady obj).generation = obj.generation
      ∧ (StatusReady obj).finalizers = obj.finalizers
      ∧ (StatusReady obj).deletionTimestampSet = obj.deletionTimestampSet)
    ∧ ((StatusTerminating obj).status.phase = StatusPhaseTerminating
      ∧ (StatusTerminating obj).status.observedGeneration = obj.generation
      ∧ (StatusTerminating obj).status.conditions
          = setStatusCondition obj.status.conditions
              ⟨ServiceProviderConditionReady, false, obj.generation, "Terminating",
                "Cleanup in progress"⟩
      ∧ findStatusCondition (StatusTerminating obj).status.conditions
            ServiceProviderConditionReady
          = some ⟨ServiceProviderConditionReady, false, obj.generation, "Terminating",
              "Cleanup in progress"⟩
      ∧ (StatusTerminating obj).generation = obj.generation
      ∧ (StatusTerminating obj).finalizers = obj.finalizers
      ∧ (StatusTerminating obj).deletionTimestampSet = obj.deletionTimestampSet) :=
  ⟨⟨rfl, rfl, rfl,
      findStatusCondition_setStatusCondition obj.status.conditions
        ⟨ServiceProviderConditionReady, false, obj.generation, reason, message⟩,
      rfl, rfl, rfl⟩,
    ⟨rfl, rfl, rfl,
      findStatusCondition_setStatusCondition obj.status.conditions
        ⟨ServiceProviderConditionReady, true, obj.generation, "ReconcileSuccess",
          "Domain Service is ready"⟩,
      rfl, rfl, rfl⟩,
    ⟨rfl, rfl, rfl,
      findStatusCondition_setStatusCondition obj.status.conditions
        ⟨ServiceProviderConditionReady, false, obj.generation, "Terminating",
          "Cleanup in progress"⟩,
      rfl, rfl, rfl⟩⟩

/-- C4 counterexample: when the stored provider-config object exists and
carries no deletion marker but the read fails with a transient
(non-not-found) error, the secondary loop still publishes a tombstone —
refuting "the event carries no payload if and only if the configuration
object is absent or carries a deletion marker". -/
theorem c4_tombstone_counterexample :
    pcPublished c4Env = [none]
    ∧ c4Env.stored = some c4Obj
    ∧ c4Obj.deletionTimestampSet = false
    ∧ isNotFound c4Env.readErr = false := by
  exact ⟨rfl, rfl, rfl, rfl⟩

/-- C4 amended: every invocation of the secondary loop's `Reconcile`
publishes exactly one event, and the event carries a (deep-copied) payload
exactly when the configuration object is retrievable (no read error, object
present) and carries no deletion marker; in every other case — absent
object, deletion marker, or any read error — it is a tombstone. -/
theorem c4_publish_exactly_once (env : PCEnv) :
    pcPublished env = [pcLiveStored env] ∧ (pcPublished env).length = 1 := by
  have h : pcPublished env = [pcLiveStored env] := by
    rcases env with ⟨stored, readErr⟩
    cases readErr with
    | some e => simp [pcPublished, pcReconcile, pcGet, pcLiveStored]
    | none =>
      cases stored with
      | none => simp [pcPublished, pcReconcile, pcGet, pcLiveStored]
      | some o =>
        cases ho : o.deletionTimestampSet <;>
          simp [pcPublished, pcReconcile, pcGet, pcLiveStored, ho]
  exact ⟨h, by rw [h]; rfl⟩

/-- C5: the fan-out consumer's mapping function stores the event's payload
(or nil for a tombstone) as the new cached configuration pointer and, when
the listing succeeds, enqueues exactly one reconciliation request per
listed managed object — the request keys being exactly the objects' keys. -/
theorem c5_fanout_requests (evObj : Option ProviderConfig) (items : List UnstructuredItem) :
    providerConfigMapFunc evObj (.ok items) = (evObj, items.map objectKeyFromObject)
    ∧ (providerConfigMapFunc evObj (.ok items)).2.length = items.length := by
  cases evObj <;> simp [providerConfigMapFunc]

/-- C1: Over any run of reconciliations (each invocation described by its
environment), provided the access requests can only be observed "in
deletion" after some earlier invocation has already called access teardown
(they are driven only by the loop's own `ReconcileDelete` calls), every
invocation satisfies: the finalizer is removed — and its persisting update
issued — exactly when access teardown reported complete (zero requeue
delay, no error) in that invocation; whenever that happens the domain
delete has reported complete (zero delay, no error) in that or an earlier
invocation; the finalizer update is the last recorded action of the
invocation; and the finalizer is gone from the persisted object.  In
particular the finalizer is never removed while teardown fails or is
pending. -/
theorem c1_deletion_finalizer_lifecycle (envs : Nat → SPEnv)
    (hcoh : ∀ i, accessReqsInDeletionNoErr (envs i) = true →
      ∃ j, j < i ∧ teardownCalledIn (reconcile (envs j)) = true) :
    ∀ i,
      (finalizerAttemptedIn (reconcile (envs i)) = true
        ↔ teardownCompleteIn (reconcile (envs i)) = true)
      ∧ (finalizerAttemptedIn (reconcile (envs i)) = true →
          (∃ j, j ≤ i ∧ domainDeleteCompleteIn (reconcile (envs j)) = true)
          ∧ (∃ pre fs e, (reconcile (envs i)).effects
              = pre ++ [Effect.finalizerUpdate fs e])
          ∧ (envs i).fin ∉ (reconcile (envs i)).obj.finalizers) := by
  have key : ∀ i, teardownCalledIn (reconcile (envs i)) = true →
      ∃ j, j ≤ i ∧ domainDeleteCompleteIn (reconcile (envs j)) = true := by
    intro i
    induction i using Nat.strong_induction_on with
    | _ i ih =>
      intro hcall
      rcases reconcile_called (envs i) hcall with hacc | hdom
      · rcases hcoh i hacc with ⟨j, hji, hcj⟩
        rcases ih j hji hcj with ⟨k, hkj, hk⟩
        exact ⟨k, le_trans hkj (le_of_lt hji), hk⟩
      · exact ⟨i, le_refl i, hdom⟩
  intro i
  refine ⟨by rw [reconcile_iff (envs i)], fun hfin => ?_⟩
  have hcomp : teardownCompleteIn (reconcile (envs i)) = true := by
    rw [← reconcile_iff (envs i)]
    exact hfin
  exact ⟨key i (teardownComplete_called _ hcomp), reconcile_last _ hfin,
    reconcile_objFin _ hfin⟩

/-- Witness for C1 on a concrete two-invocation deletion run: invocation 0
completes the domain delete and starts teardown (pending), invocation 1
finds the access requests in deletion, completes teardown, and removes the
finalizer having a domain-delete completion in its past. -/
theorem c1_deletion_finalizer_lifecycle_witness :
    finalizerAttemptedIn (reconcile (c1Envs 1)) = true
    ∧ (∃ j, j ≤ 1 ∧ domainDeleteCompleteIn (reconcile (c1Envs j)) = true)
    ∧ (∃ pre fs e, (reconcile (c1Envs 1)).effects
        = pre ++ [Effect.finalizerUpdate fs e])
    ∧ (c1Envs 1).fin ∉ (reconcile (c1Envs 1)).obj.finalizers := by
  have hcoh : ∀ i, accessReqsInDeletionNoErr (c1Envs i) = true →
      ∃ j, j < i ∧ teardownCalledIn (reconcile (c1Envs j)) = true := by
    intro i h
    match i with
    | 0 => exact absurd h (by decide)
    | k + 1 => exact ⟨0, Nat.succ_pos k, by decide⟩
  have hfin : finalizerAttemptedIn (reconcile (c1Envs 1)) = true := by decide
  have h := (c1_deletion_finalizer_lifecycle c1Envs hcoh 1).2 hfin
  exact ⟨hfin, h.1, h.2.1, h.2.2⟩

/-- C2 counterexample: with the object live, the configuration cached, and
the cluster-access collaborator returning a nil MCP handle together with a
nil error (after its own reconcile reported zero delay, no error),
`Reconcile` returns an empty result and a non-nil error — not a positive
requeue delay with no error as claimed. -/
theorem c2_cluster_missing_counterexample :
    (reconcile c2Env).err = some ⟨false, "mcp access missing"⟩
    ∧ (reconcile c2Env).res.requeueAfter = 0
    ∧ c2Env.mcpCluster = (none, none)
    ∧ c2Env.getResult = .ok wLiveObj
    ∧ wLiveObj.deletionTimestampSet = false
    ∧ c2Env.providerConfig = some ⟨300, 0⟩ :=
  ⟨rfl, rfl, rfl, rfl, rfl, rfl⟩

/-- C2 amended: whenever the cluster-access collaborator returns a nil MCP
cluster handle together with a nil error during a create/update
reconciliation (object live, configuration cached, finalizer write
successful, access reconcile complete), `Reconcile` returns an empty
result together with a non-nil "mcp access missing" error; the finalizer
has already been added to the in-memory object, and the domain
reconciler's `CreateOrUpdate` is not invoked. -/
theorem c2_cluster_missing_amended (env : SPEnv) (obj : APIObject) (pc : ProviderConfig)
    (hget : env.getResult = .ok obj)
    (hlive : obj.deletionTimestampSet = false)
    (hpc : env.providerConfig = some pc)
    (hensure : env.ensureFinalizerErr = none)
    (hacc : env.accessReconcile = (⟨0⟩, none))
    (hmcp : env.mcpCluster = (none, none)) :
    (reconcile env).err = some ⟨false, "mcp access missing"⟩
    ∧ (reconcile env).res.requeueAfter = 0
    ∧ env.fin ∈ (reconcile env).obj.finalizers
    ∧ (reconcile env).effects.any isDomainCreateOrUpdateCall = false := by
  rcases reconcile_cases env with ⟨e2, hg, hre⟩ | ⟨obj2, hg, hpc2, hre⟩
    | ⟨obj2, pc2, hg, hpc2, hdel2, hre⟩ | ⟨obj2, pc2, hg, hpc2, hdel2, hre⟩
  · rw [hget] at hg
    exact absurd hg (by simp)
  · rw [hpc] at hpc2
    exact absurd hpc2 (by simp)
  · rw [hget] at hg
    injection hg with hh
    subst hh
    rw [hlive] at hdel2
    exact absurd hdel2 (by simp)
  · rw [hget] at hg
    injection hg with hh
    subst hh
    have hcl : clusters env = (⟨none, none⟩, ⟨0⟩, some ⟨false, "mcp access missing"⟩) := by
      simp [clusters, hacc, hmcp]
    have hco : createOrUpdateFn env obj
        = ⟨⟨0⟩, some ⟨false, "mcp access missing"⟩, addFinalizer env.fin obj,
            [Effect.ensureFinalizer none, Effect.accessReconcile]⟩ := by
      simp [createOrUpdateFn, hensure, hcl]
    have hup : updateStatus env.statusPatchErr (addFinalizer env.fin obj) obj = [] := by
      unfold updateStatus
      rw [addFinalizer_status]
      simp
    have hcw : coWrap env obj
        = ⟨⟨0⟩, some ⟨false, "mcp access missing"⟩, addFinalizer env.fin obj,
            [Effect.ensureFinalizer none, Effect.accessReconcile]⟩ := by
      simp [coWrap, hco, hup]
    refine ⟨?_, ?_, ?_, ?_⟩
    · rw [hre]
      show (coWrap env obj).err = _
      rw [hcw]
    · rw [hre]
      show (resWrap (coWrap env obj) pc2).requeueAfter = 0
      rw [hcw]
      rfl
    · rw [hre]
      show env.fin ∈ (coWrap env obj).obj.finalizers
      rw [hcw]
      exact addFinalizer_mem env.fin obj
    · rw [hre]
      show (coWrap env obj).effects.any isDomainCreateOrUpdateCall = false
      rw [hcw]
      simp [isDomainCreateOrUpdateCall]

/-- Witness for the amended C2 on a concrete healthy environment whose MCP
lookup returns a nil handle and nil error. -/
theorem c2_cluster_missing_witness :
    (reconcile c2Env).res.requeueAfter = 0
    ∧ c2Env.fin ∈ (reconcile c2Env).obj.finalizers
    ∧ (reconcile c2Env).effects.any isDomainCreateOrUpdateCall = false := by
  have h := c2_cluster_missing_amended c2Env wLiveObj ⟨300, 0⟩ rfl rfl rfl rfl rfl rfl
  exact ⟨h.2.1, h.2.2.1, h.2.2.2⟩

/-- C3: when the cached provider-configuration pointer is nil and the object
exists, `Reconcile` marks the in-memory object Progressing (reason
"ReconcileError", message "No ProviderConfig found"), issues a status patch
when the status actually changed, returns a non-nil error with an empty
result, and does not touch the finalizer list. -/
theorem c3_missing_provider_config (env : SPEnv) (obj : APIObject)
    (hget : env.getResult = .ok obj)
    (hpc : env.providerConfig = none) :
    (reconcile env).err = some ⟨false, "provider config missing"⟩
    ∧ (reconcile env).res = ⟨0⟩
    ∧ (reconcile env).obj = StatusProgressing obj "ReconcileError" "No ProviderConfig found"
    ∧ (reconcile env).obj.status.phase = StatusPhaseProgressing
    ∧ (reconcile env).obj.finalizers = obj.finalizers
    ∧ (obj.status ≠ (StatusProgressing obj "ReconcileError" "No ProviderConfig found").status →
        (reconcile env).effects
          = [Effect.statusPatch
              (StatusProgressing obj "ReconcileError" "No ProviderConfig found").status
              env.statusPatchErr]) := by
  rcases reconcile_cases env with ⟨e2, hg, hre⟩ | ⟨obj2, hg, hpc2, hre⟩
    | ⟨obj2, pc2, hg, hpc2, hdel2, hre⟩ | ⟨obj2, pc2, hg, hpc2, hdel2, hre⟩
  · rw [hget] at hg
    exact absurd hg (by simp)
  · rw [hget] at hg
    injection hg with hh
    subst hh
    refine ⟨?_, ?_, ?_, ?_, ?_, ?_⟩
    · rw [hre]
    · rw [hre]
    · rw [hre]
    · rw [hre]
      rfl
    · rw [hre]
      rfl
    · intro hne
      rw [hre]
      show updateStatus env.statusPatchErr
        (StatusProgressing obj "ReconcileError" "No ProviderConfig found") obj = _
      unfold updateStatus
      rw [if_neg hne]
  · rw [hpc] at hpc2
    exact absurd hpc2 (by simp)
  · rw [hpc] at hpc2
    exact absurd hpc2 (by simp)

/-- Witness for C3 on a concrete environment with no cached configuration. -/
theorem c3_missing_provider_config_witness :
    (reconcile c3Env).err = some ⟨false, "provider config missing"⟩
    ∧ (reconcile c3Env).obj.status.phase = StatusPhaseProgressing
    ∧ (reconcile c3Env).obj.finalizers = wLiveObj.finalizers
    ∧ (reconcile c3Env).effects
        = [Effect.statusPatch
            (StatusProgressing wLiveObj "ReconcileError" "No ProviderConfig found").status
            c3Env.statusPatchErr] := by
  have h := c3_missing_provider_config c3Env wLiveObj rfl rfl
  exact ⟨h.1, h.2.2.2.1, h.2.2.2.2.1, h.2.2.2.2.2 (by decide)⟩

/-- C6: during a deletion reconciliation whose access requests are already
in deletion (MCP — or, when a workload cluster is required, workload —
access request not found or carrying its own deletion timestamp), the
domain reconciler's `Delete` is never invoked, access teardown is still
requested, and as soon as teardown reports completion (zero delay, no
error) the finalizer is removed from the object and the persisting update
issued, whose error (if any) becomes the returned error. -/
theorem c6_skip_domain_delete (env : SPEnv) (obj : APIObject) (pc : ProviderConfig)
    (hget : env.getResult = .ok obj)
    (hdel : obj.deletionTimestampSet = true)
    (hpc : env.providerConfig = some pc)
    (hacc : areAccessRequestsInDeletion env = (true, none)) :
    (reconcile env).effects.any isDomainDeleteCall = false
    ∧ teardownCalledIn (reconcile env) = true
    ∧ (env.reconcileDelete = (⟨0⟩, none) →
        finalizerAttemptedIn (reconcile env) = true
        ∧ env.fin ∉ (reconcile env).obj.finalizers
        ∧ (reconcile env).err = env.finalizerUpdateErr) := by
  rcases reconcile_cases env with ⟨e2, hg, hre⟩ | ⟨obj2, hg, hpc2, hre⟩
    | ⟨obj2, pc2, hg, hpc2, hdel2, hre⟩ | ⟨obj2, pc2, hg, hpc2, hdel2, hre⟩
  · rw [hget] at hg
    exact absurd hg (by simp)
  · rw [hpc] at hpc2
    exact absurd hpc2 (by simp)
  · rw [hget] at hg
    injection hg with hh
    subst hh
    have hd : deleteFn env obj = deleteTeardown env obj [] := by
      unfold deleteFn
      rw [hacc]
      rfl
    refine ⟨?_, ?_, fun hrd => ?_⟩
    · rw [hre]
      show (deleteFn env obj).effects.any isDomainDeleteCall = false
      rw [hd]
      exact deleteTeardown_any env obj [] isDomainDeleteCall (by simp)
        (fun r e2 => rfl) (fun fs e2 => rfl)
    · show (reconcile env).effects.any isTeardownCall = true
      rw [hre]
      show (deleteFn env obj).effects.any isTeardownCall = true
      rw [hd]
      exact deleteTeardown_called env obj []
    · have hone := hd.trans (deleteTeardown_success env obj [] hrd)
      refine ⟨?_, ?_, ?_⟩
      · show (reconcile env).effects.any isFinalizerUpdate = true
        rw [hre]
        show (deleteFn env obj).effects.any isFinalizerUpdate = true
        rw [hone]
        simp [isFinalizerUpdate]
      · rw [hre]
        show env.fin ∉ (deleteFn env obj).obj.finalizers
        rw [hone]
        simp [removeFinalizer, List.mem_filter]
      · rw [hre]
        show (deleteFn env obj).err = env.finalizerUpdateErr
        rw [hone]
  · rw [hget] at hg
    injection hg with hh
    subst hh
    rw [hdel] at hdel2
    exact absurd hdel2 (by simp)

/-- Witness for C6 on a concrete deletion environment whose MCP access
request is already gone. -/
theorem c6_skip_domain_delete_witness :
    (reconcile c6Env).effects.any isDomainDeleteCall = false
    ∧ teardownCalledIn (reconcile c6Env) = true
    ∧ finalizerAttemptedIn (reconcile c6Env) = true
    ∧ c6Env.fin ∉ (reconcile c6Env).obj.finalizers := by
  have h := c6_skip_domain_delete c6Env wDelObj ⟨300, 0⟩ rfl rfl rfl (by decide)
  have h3 := h.2.2 rfl
  exact ⟨h.1, h.2.1, h3.1, h3.2.1⟩

/-- C7: when the delegated create/update operation completes with no error
(here: finalizer ensured, access complete, MCP handle resolved, domain
`CreateOrUpdate` returning no error), `Reconcile` returns no error and a
requeue delay that is the operation's delay verbatim when positive and
exactly the provider configuration's poll interval otherwise. -/
theorem c7_poll_interval_fallback (env : SPEnv) (obj : APIObject) (pc : ProviderConfig)
    (obj2 : APIObject) (r : Result) (c : Cluster)
    (hget : env.getResult = .ok obj)
    (hlive : obj.deletionTimestampSet = false)
    (hpc : env.providerConfig = some pc)
    (hensure : env.ensureFinalizerErr = none)
    (hacc : env.accessReconcile = (⟨0⟩, none))
    (hmcp : env.mcpCluster = (some c, none))
    (hwl : env.withWorkloadCluster = false)
    (hdom : env.domainCreateOrUpdate (addFinalizer env.fin obj) = (obj2, r, none)) :
    (reconcile env).err = none
    ∧ (reconcile env).res = (if 0 < r.requeueAfter then r else ⟨pc.pollInterval⟩) := by
  rcases reconcile_cases env with ⟨e2, hg, hre⟩ | ⟨obj3, hg, hpc2, hre⟩
    | ⟨obj3, pc2, hg, hpc2, hdel2, hre⟩ | ⟨obj3, pc2, hg, hpc2, hdel2, hre⟩
  · rw [hget] at hg
    exact absurd hg (by simp)
  · rw [hpc] at hpc2
    exact absurd hpc2 (by simp)
  · rw [hget] at hg
    injection hg with hh
    subst hh
    rw [hlive] at hdel2
    exact absurd hdel2 (by simp)
  · rw [hget] at hg
    injection hg with hh
    subst hh
    rw [hpc] at hpc2
    injection hpc2 with hh2
    subst hh2
    have hcl : clusters env = (⟨some c, none⟩, ⟨0⟩, none) := by
      simp [clusters, hacc, hmcp, hwl]
    have hco : createOrUpdateFn env obj
        = ⟨r, none, obj2,
            [Effect.ensureFinalizer none, Effect.accessReconcile,
              Effect.domainCreateOrUpdate r none]⟩ := by
      simp [createOrUpdateFn, hensure, hcl, hdom]
    have hcwerr : (coWrap env obj).err = none := by
      show (createOrUpdateFn env obj).err = none
      rw [hco]
    have hcwres : (coWrap env obj).res = r := by
      show (createOrUpdateFn env obj).res = r
      rw [hco]
    constructor
    · rw [hre]
      show (coWrap env obj).err = none
      exact hcwerr
    · rw [hre]
      show resWrap (coWrap env obj) pc = _
      simp only [resWrap, hcwerr, hcwres]

/-- Witness for C7 on a healthy environment whose domain create/update
returns zero delay and whose provider config polls every 300 units: the
returned requeue delay is exactly 300. -/
theorem c7_poll_interval_fallback_witness :
    (reconcile wBaseEnv).err = none ∧ (reconcile wBaseEnv).res = ⟨300⟩ := by
  have h := c7_poll_interval_fallback wBaseEnv wLiveObj ⟨300, 0⟩
    (addFinalizer wBaseEnv.fin wLiveObj) ⟨0⟩ ⟨1⟩ rfl rfl rfl rfl rfl rfl rfl rfl
  exact ⟨h.1, h.2.trans (by decide)⟩

/-- C10: in the deletion path (object deleted, config cached, access
requests not yet in deletion), when cluster-context resolution fails with
an error, or reports a pending requeue, the Progressing status written to
the in-memory object is never persisted: no status patch is issued and
`Reconcile` returns the error (with empty result) or the requeue delay
respectively, the stored object's status being untouched by the
invocation. -/
theorem c10_delete_cluster_failure_no_patch (env : SPEnv) (obj : APIObject)
    (pc : ProviderConfig)
    (hget : env.getResult = .ok obj)
    (hdel : obj.deletionTimestampSet = true)
    (hpc : env.providerConfig = some pc)
    (hacc : areAccessRequestsInDeletion env = (false, none)) :
    (∀ e2, (clusters env).2.2 = some e2 →
      (reconcile env).err = some e2
      ∧ (reconcile env).res = ⟨0⟩
      ∧ statusPatchedIn (reconcile env) = false
      ∧ (reconcile env).obj = StatusProgressing obj "ReconcileError" "cluster setup error")
    ∧ ((clusters env).2.2 = none → 0 < (clusters env).2.1.requeueAfter →
      (reconcile env).err = none
      ∧ (reconcile env).res = (clusters env).2.1
      ∧ statusPatchedIn (reconcile env) = false
      ∧ (reconcile env).obj = StatusProgressing obj "Reconciling" "clusters being setup") := by
  rcases reconcile_cases env with ⟨e2, hg, hre⟩ | ⟨obj2, hg, hpc2, hre⟩
    | ⟨obj2, pc2, hg, hpc2, hdel2, hre⟩ | ⟨obj2, pc2, hg, hpc2, hdel2, hre⟩
  · rw [hget] at hg
    exact absurd hg (by simp)
  · rw [hpc] at hpc2
    exact absurd hpc2 (by simp)
  · rw [hget] at hg
    injection hg with hh
    subst hh
    constructor
    · intro e2 hce
      have hdf : deleteFn env obj
          = ⟨⟨0⟩, some e2, StatusProgressing obj "ReconcileError" "cluster setup error",
              [Effect.accessReconcile]⟩ := by
        rcases hclu : clusters env with ⟨cc, cr, ce⟩
        rw [hclu] at hce
        dsimp only at hce
        subst hce
        simp [deleteFn, hacc, hclu]
      refine ⟨?_, ?_, ?_, ?_⟩
      · rw [hre]
        show (deleteFn env obj).err = some e2
        rw [hdf]
      · rw [hre]
        show resWrap (deleteFn env obj) pc2 = ⟨0⟩
        rw [hdf]
        rfl
      · show (reconcile env).effects.any isStatusPatch = false
        rw [hre]
        show (deleteFn env obj).effects.any isStatusPatch = false
        rw [hdf]
        simp [isStatusPatch]
      · rw [hre]
        show (deleteFn env obj).obj = _
        rw [hdf]
    · intro hce hcr
      have hdf : deleteFn env obj
          = ⟨(clusters env).2.1, none,
              StatusProgressing obj "Reconciling" "clusters being setup",
              [Effect.accessReconcile]⟩ := by
        rcases hclu : clusters env with ⟨cc, cr, ce⟩
        rw [hclu] at hce hcr
        dsimp only at hce hcr
        subst hce
        simp [deleteFn, hacc, hclu, hcr]
      refine ⟨?_, ?_, ?_, ?_⟩
      · rw [hre]
        show (deleteFn env obj).err = none
        rw [hdf]
      · rw [hre]
        show resWrap (deleteFn env obj) pc2 = (clusters env).2.1
        rw [hdf]
        unfold resWrap
        simp [hcr]
      · show (reconcile env).effects.any isStatusPatch = false
        rw [hre]
        show (deleteFn env obj).effects.any isStatusPatch = false
        rw [hdf]
        simp [isStatusPatch]
      · rw [hre]
        show (deleteFn env obj).obj = _
        rw [hdf]
  · rw [hget] at hg
    injection hg with hh
    subst hh
    rw [hdel] at hdel2
    exact absurd hdel2 (by simp)

/-- Witness for C10 on a concrete deletion environment whose cluster-access
reconcile fails: the error propagates and no status patch is issued. -/
theorem c10_delete_cluster_failure_no_patch_witness :
    (reconcile c10Env).err = some ⟨false, "cluster access error"⟩
    ∧ statusPatchedIn (reconcile c10Env) = false
    ∧ (reconcile c10Env).obj
        = StatusProgressing wDelObj "ReconcileError" "cluster setup error" := by
  have h := (c10_delete_cluster_failure_no_patch c10Env wDelObj ⟨300, 0⟩
    rfl rfl rfl (by decide)).1 ⟨false, "cluster access error"⟩ (by decide)
  exact ⟨h.1, h.2.2.1, h.2.2.2⟩

/-- C8: the status-update operation issues a persistence call exactly when
the old and new status differ under deep equality, and a failed status
patch is never escalated: injecting any patch error into an otherwise
identical environment leaves `Reconcile`'s returned result, error and
final object unchanged (only the recorded patch action differs). -/
theorem c8_status_patch_never_escalated (p : Option GoErr) (newObj oldObj : APIObject)
    (env : SPEnv) (e : Option GoErr) :
    ((updateStatus p newObj oldObj).any isStatusPatch = true ↔ oldObj.status ≠ newObj.status)
    ∧ (reconcile { env with statusPatchErr := e }).res = (reconcile env).res
    ∧ (reconcile { env with statusPatchErr := e }).err = (reconcile env).err
    ∧ (reconcile { env with statusPatchErr := e }).obj = (reconcile env).obj := by
  refine ⟨?_, (reconcile_patchErr env e).1, (reconcile_patchErr env e).2.1,
    (reconcile_patchErr env e).2.2⟩
  unfold updateStatus
  split
  · rename_i h
    simp [h, isStatusPatch]
  · rename_i h
    simp [isStatusPatch, h]
